import Mathlib

/-!
Verification of the subtitle-pipeline repository (pipeline.py, transcribe_only.py,
translate_only.py) against its natural-language specification.

Times are modelled as exact rationals (Python floats with exact arithmetic), text as
Lean strings (code-point sequences, matching Python string indexing), and the external
engines (speech recognition, translation model, sentence splitter, file system) as
function parameters, since the repository invokes them through narrow interfaces.
-/

namespace Subpipe

/-- A subtitle segment as it flows through every stage: `(start, end, text)`. -/
abbrev Seg : Type := ℚ × ℚ × String

/-! ### Python arithmetic primitives (exact-rational model) -/

/-- Python `int(x)` on a rational: truncation toward zero. -/
def pyInt (q : ℚ) : ℤ := if 0 ≤ q then ⌊q⌋ else -⌊-q⌋

/-- Python `a // b` on floats: floor division, returning a float (here a rational). -/
def pyFloordiv (a b : ℚ) : ℚ := (⌊a / b⌋ : ℤ)

/-- Python `a % b` on floats: `a - b * (a // b)`. -/
def pyMod (a b : ℚ) : ℚ := a - b * (⌊a / b⌋ : ℤ)

/-- Zero-pad the decimal representation of `n` to width `w` (Python `f"{n:0w}"`, `n ≥ 0`). -/
def padNat (w : ℕ) (n : ℕ) : String :=
  let s := toString n
  if s.length < w then String.mk (List.replicate (w - s.length) '0') ++ s else s

/-- Python `f"{n:0w}"` on an int: the sign, when present, counts toward the width
and precedes the zero padding. -/
def padInt (w : ℕ) (n : ℤ) : String :=
  if n < 0 then "-" ++ padNat (w - 1) n.natAbs else padNat w n.toNat

/-! ### SRT serialization (`save_srt_segments`, translate_only.py lines 121–128 and
transcribe_only.py lines 59–66, identical code) -/

/-- One timestamp, from the source f-string
`f"{int(t // 3600):02}:{int((t % 3600) // 60):02}:{int(t % 60):02},{int((t * 1000) % 1000):03}"`. -/
def format_timestamp (t : ℚ) : String :=
  padInt 2 (pyInt (pyFloordiv t 3600)) ++ ":" ++
  padInt 2 (pyInt (pyFloordiv (pyMod t 3600) 60)) ++ ":" ++
  padInt 2 (pyInt (pyMod t 60)) ++ "," ++
  padInt 3 (pyInt (pyMod (t * 1000) 1000))

/-- The timestamp line of an SRT block: `start --> end`. -/
def srt_timestamp_line (s e : ℚ) : String :=
  format_timestamp s ++ " --> " ++ format_timestamp e

/-- One SRT block: 1-based index line, timestamp line, text, blank separator. -/
def srt_block (idx : ℕ) (seg : Seg) : String :=
  toString idx ++ "\n" ++ srt_timestamp_line seg.1 seg.2.1 ++ "\n" ++ seg.2.2 ++ "\n\n"

/-- `save_srt_segments`: serialize the whole list, enumerating from 1.  The source
writes each block to the output file in order; the produced text is their
concatenation.  There is no validation of any kind on the segments. -/
def save_srt_segments (segments : List Seg) : String :=
  String.join ((segments.enumFrom 1).map (fun p => srt_block p.1 p.2))

/-! ### Spec-side timestamp: HH:MM:SS from the whole-second part, milliseconds as the
fractional-second remainder times 1000, truncated (floored) — the spec's words. -/

/-- The timestamp as the spec describes it: zero-padded two-digit hour, minute and
second fields from the whole-second part, and a three-digit millisecond field computed
from the fractional-second remainder by truncation (floor of `frac * 1000`). -/
def spec_timestamp (t : ℚ) : String :=
  padNat 2 (⌊t⌋.toNat / 3600) ++ ":" ++
  padNat 2 (⌊t⌋.toNat % 3600 / 60) ++ ":" ++
  padNat 2 (⌊t⌋.toNat % 60) ++ "," ++
  padNat 3 (⌊(t - (⌊t⌋ : ℚ)) * 1000⌋.toNat)

/-! ### Bridging lemmas -/

theorem pyInt_intCast (z : ℤ) : pyInt (z : ℚ) = z := by
  unfold pyInt
  by_cases h : (0:ℚ) ≤ (z:ℚ)
  · rw [if_pos h, Int.floor_intCast]
  · rw [if_neg h]
    have : (-(z:ℚ)) = ((-z : ℤ) : ℚ) := by push_cast; ring
    rw [this, Int.floor_intCast, neg_neg]

theorem pyInt_of_nonneg {q : ℚ} (h : 0 ≤ q) : pyInt q = ⌊q⌋ := by
  unfold pyInt; rw [if_pos h]

theorem pyMod_nonneg (a : ℚ) {b : ℚ} (hb : 0 < b) : 0 ≤ pyMod a b := by
  have h := Int.sub_floor_div_mul_nonneg a hb
  unfold pyMod; linarith

theorem pyMod_lt (a : ℚ) {b : ℚ} (hb : 0 < b) : pyMod a b < b := by
  have h := Int.sub_floor_div_mul_lt a hb
  unfold pyMod; linarith

/-- Floor of a rational divided by a positive integer is integer (Euclidean) division
of its floor. -/
theorem floor_qdiv (t : ℚ) (b : ℤ) (hb : 0 < b) : ⌊t / (b : ℚ)⌋ = ⌊t⌋ / b := by
  have hbq : (0:ℚ) < (b:ℚ) := by exact_mod_cast hb
  have hmul : (⌊t⌋ / b) * b ≤ ⌊t⌋ := Int.ediv_mul_le ⌊t⌋ (by omega)
  have hup : ⌊t⌋ < (⌊t⌋ / b + 1) * b := by
    have := Int.emod_lt_of_pos ⌊t⌋ hb
    have := Int.ediv_add_emod ⌊t⌋ b
    nlinarith [Int.emod_nonneg ⌊t⌋ (by omega : b ≠ 0)]
  refine Int.floor_eq_iff.mpr ⟨?_, ?_⟩
  · rw [le_div_iff₀ hbq]
    calc ((⌊t⌋ / b : ℤ) : ℚ) * b = (((⌊t⌋ / b) * b : ℤ) : ℚ) := by push_cast; ring
    _ ≤ (⌊t⌋ : ℚ) := by exact_mod_cast hmul
    _ ≤ t := Int.floor_le t
  · rw [div_lt_iff₀ hbq]
    calc t < (⌊t⌋ : ℚ) + 1 := Int.lt_floor_add_one t
    _ ≤ (((⌊t⌋ / b + 1) * b : ℤ) : ℚ) := by exact_mod_cast hup
    _ = ((⌊t⌋ / b : ℤ) + 1) * (b : ℚ) := by push_cast; ring

theorem padInt_of_nonneg (w : ℕ) {z : ℤ} (h : 0 ≤ z) : padInt w z = padNat w z.toNat := by
  unfold padInt; rw [if_neg (by omega)]

/-- The source timestamp formula agrees with the spec's description for every
non-negative time. -/
theorem format_timestamp_eq_spec (t : ℚ) (ht : 0 ≤ t) :
    format_timestamp t = spec_timestamp t := by
  have hn : (0:ℤ) ≤ ⌊t⌋ := Int.floor_nonneg.mpr ht
  have h3600 : ⌊t / (3600 : ℚ)⌋ = ⌊t⌋ / 3600 := by
    have h := floor_qdiv t 3600 (by norm_num)
    norm_num at h ⊢; exact h
  have h60 : ⌊t / (60 : ℚ)⌋ = ⌊t⌋ / 60 := by
    have h := floor_qdiv t 60 (by norm_num)
    norm_num at h ⊢; exact h
  -- hour component
  have e1 : padInt 2 (pyInt (pyFloordiv t 3600)) = padNat 2 (⌊t⌋.toNat / 3600) := by
    unfold pyFloordiv
    rw [h3600, pyInt_intCast, padInt_of_nonneg 2 (by omega)]
    congr 1; omega
  -- minute component
  have e2 : padInt 2 (pyInt (pyFloordiv (pyMod t 3600) 60)) =
      padNat 2 (⌊t⌋.toNat % 3600 / 60) := by
    unfold pyFloordiv pyMod
    rw [h3600]
    have hc : (t - 3600 * ((⌊t⌋ / 3600 : ℤ) : ℚ)) / 60 =
        t / 60 - ((60 * (⌊t⌋ / 3600) : ℤ) : ℚ) := by push_cast; ring
    rw [hc, Int.floor_sub_int, h60, pyInt_intCast, padInt_of_nonneg 2 (by omega)]
    congr 1; omega
  -- second component
  have e3 : padInt 2 (pyInt (pyMod t 60)) = padNat 2 (⌊t⌋.toNat % 60) := by
    have hx : 0 ≤ pyMod t 60 := pyMod_nonneg t (by norm_num)
    rw [pyInt_of_nonneg hx]
    unfold pyMod
    rw [h60]
    have hc : t - 60 * ((⌊t⌋ / 60 : ℤ) : ℚ) = t - ((60 * (⌊t⌋ / 60) : ℤ) : ℚ) := by
      push_cast; ring
    rw [hc, Int.floor_sub_int, padInt_of_nonneg 2 (by omega)]
    congr 1; omega
  -- millisecond component
  have e4 : padInt 3 (pyInt (pyMod (t * 1000) 1000)) =
      padNat 3 (⌊(t - (⌊t⌋ : ℚ)) * 1000⌋.toNat) := by
    have hx : 0 ≤ pyMod (t * 1000) 1000 := pyMod_nonneg (t * 1000) (by norm_num)
    rw [pyInt_of_nonneg hx]
    unfold pyMod
    have hq : t * 1000 / 1000 = t := by
      field_simp
    rw [hq]
    have hc : t * 1000 - 1000 * ((⌊t⌋ : ℤ) : ℚ) = t * 1000 - ((1000 * ⌊t⌋ : ℤ) : ℚ) := by
      push_cast; ring
    have hs : (t - (⌊t⌋ : ℚ)) * 1000 = t * 1000 - ((1000 * ⌊t⌋ : ℤ) : ℚ) := by
      push_cast; ring
    unfold pyMod at hx
    rw [hq, hc] at hx
    have h0 : (0:ℤ) ≤ ⌊t * 1000 - ((1000 * ⌊t⌋ : ℤ) : ℚ)⌋ := Int.floor_nonneg.mpr hx
    rw [Int.floor_sub_int] at h0
    rw [hc, Int.floor_sub_int, hs, Int.floor_sub_int, padInt_of_nonneg 3 (by omega)]
  unfold format_timestamp spec_timestamp
  rw [e1, e2, e3, e4]

/-- The minute and second fields are below 60 and the millisecond field below 1000. -/
theorem spec_fields_bound (t : ℚ) :
    ⌊t⌋.toNat % 3600 / 60 < 60 ∧ ⌊t⌋.toNat % 60 < 60 ∧
    ⌊(t - (⌊t⌋ : ℚ)) * 1000⌋.toNat < 1000 := by
  refine ⟨by omega, by omega, ?_⟩
  have h1 : t - (⌊t⌋ : ℚ) < 1 := by linarith [Int.lt_floor_add_one t]
  have h0 : (0:ℚ) ≤ t - (⌊t⌋ : ℚ) := by linarith [Int.floor_le t]
  have hlt : ⌊(t - (⌊t⌋ : ℚ)) * 1000⌋ < 1000 := by
    apply Int.floor_lt.mpr
    push_cast
    nlinarith
  omega

/-- C1: every SRT timestamp line has the form `HH:MM:SS,mmm --> HH:MM:SS,mmm`, with
zero-padded two-digit hour, minute and second fields taken from the whole-second part
and a three-digit millisecond field computed from the fractional-second remainder by
truncation (floor), not rounding; minutes and seconds stay below 60 and milliseconds
below 1000. -/
theorem srt_timestamp_formatting (s e : ℚ) (hs : 0 ≤ s) (he : 0 ≤ e) :
    srt_timestamp_line s e = spec_timestamp s ++ " --> " ++ spec_timestamp e ∧
    (∀ t : ℚ, 0 ≤ t →
      ⌊t⌋.toNat % 3600 / 60 < 60 ∧ ⌊t⌋.toNat % 60 < 60 ∧
      ⌊(t - (⌊t⌋ : ℚ)) * 1000⌋.toNat < 1000) := by
  constructor
  · unfold srt_timestamp_line
    rw [format_timestamp_eq_spec s hs, format_timestamp_eq_spec e he]
  · exact fun t _ => spec_fields_bound t

/-- C1 witness: for `start = 3725.4` the emitted start timestamp is `01:02:05,400`. -/
theorem srt_timestamp_formatting_witness :
    (0:ℚ) ≤ 18627/5 ∧
    srt_timestamp_line (18627/5 : ℚ) 0 = "01:02:05,400 --> 00:00:00,000" := by
  have h := srt_timestamp_formatting (18627/5 : ℚ) 0 (by norm_num) le_rfl
  refine ⟨by norm_num, ?_⟩
  rw [h.1]
  have hf : ⌊(18627/5 : ℚ)⌋ = 3725 := by norm_num
  have hf0 : ⌊(0 : ℚ)⌋ = 0 := by norm_num
  unfold spec_timestamp
  rw [hf, hf0]
  have hfr : ⌊((18627/5 : ℚ) - ((3725 : ℤ) : ℚ)) * 1000⌋ = 400 := by norm_num
  have hfr0 : ⌊((0 : ℚ) - ((0 : ℤ) : ℚ)) * 1000⌋ = 0 := by norm_num
  rw [hfr, hfr0]
  decide

/-! ### C7: the spec's `EncodingError` check -/

/-- Modelled from the spec: `encode_srt` "fails with `EncodingError` if any segment has
`end < start`", and otherwise emits the SRT text.  This check is absent from the source
(`save_srt_segments` serializes unconditionally); the definition exists to compare the
spec's words with the code. -/
def encode_srt_spec (segments : List Seg) : Except String String :=
  if ∃ seg ∈ segments, seg.2.1 < seg.1 then .error "EncodingError"
  else .ok (save_srt_segments segments)

theorem spec_timestamp_five : spec_timestamp (5 : ℚ) = "00:00:05,000" := by
  unfold spec_timestamp
  have h : ⌊(5:ℚ)⌋ = 5 := by norm_num
  rw [h]
  have h2 : ⌊((5:ℚ) - ((5 : ℤ) : ℚ)) * 1000⌋ = 0 := by norm_num
  rw [h2]
  decide

theorem spec_timestamp_three : spec_timestamp (3 : ℚ) = "00:00:03,000" := by
  unfold spec_timestamp
  have h : ⌊(3:ℚ)⌋ = 3 := by norm_num
  rw [h]
  have h2 : ⌊((3:ℚ) - ((3 : ℤ) : ℚ)) * 1000⌋ = 0 := by norm_num
  rw [h2]
  decide

/-- C7 counterexample: on a segment with `end < start` the source encoder does not
fail — it serializes the segment like any other — while the spec's checking encoder
rejects the same list with `EncodingError`. -/
theorem srt_encoding_no_check :
    save_srt_segments [((5:ℚ), (3:ℚ), "x")] =
      "1\n00:00:05,000 --> 00:00:03,000\nx\n\n" ∧
    encode_srt_spec [((5:ℚ), (3:ℚ), "x")] = .error "EncodingError" := by
  constructor
  · show String.join [srt_block 1 ((5:ℚ), (3:ℚ), "x")] = _
    simp only [srt_block, srt_timestamp_line]
    rw [format_timestamp_eq_spec 5 (by norm_num), format_timestamp_eq_spec 3 (by norm_num),
      spec_timestamp_five, spec_timestamp_three]
    decide
  · unfold encode_srt_spec
    rw [if_pos]
    exact ⟨((5:ℚ), (3:ℚ), "x"), by simp, by norm_num⟩

/-- C7 amended: the source encoder performs no `end < start` validation and succeeds on
every segment list; on lists where every segment satisfies `end ≥ start` it agrees with
the spec's checking encoder. -/
theorem save_srt_segments_total (segments : List Seg)
    (h : ∀ seg ∈ segments, seg.1 ≤ seg.2.1) :
    encode_srt_spec segments = .ok (save_srt_segments segments) := by
  unfold encode_srt_spec
  rw [if_neg]
  rintro ⟨seg, hmem, hlt⟩
  exact absurd hlt (not_lt.mpr (h seg hmem))

/-- C7 amended, witness at a valid list. -/
theorem save_srt_segments_total_witness :
    encode_srt_spec [((0:ℚ), (1:ℚ), "hi")] = .ok (save_srt_segments [((0:ℚ), (1:ℚ), "hi")]) := by
  apply save_srt_segments_total
  intro seg hseg
  simp only [List.mem_singleton] at hseg
  rw [hseg]
  norm_num

/-! ### Translation stage (translate_only.py).  The sentence splitter (NLTK or the
regex heuristic) and the translation model are external engines, taken as function
parameters; the stage's own logic — the short-text guard, the truncation/capping
policy, the language-code mapping and the segment frame — is modelled exactly. -/

/-- Python whitespace characters recognized by `str.strip()` (ASCII range). -/
def isPySpace (c : Char) : Bool :=
  c == ' ' || c == '\t' || c == '\n' || c == '\r' || c.toNat == 11 || c.toNat == 12

/-- Python `text.strip()`: drop leading and trailing whitespace. -/
def pyStrip (s : String) : String :=
  String.mk (((s.data.dropWhile isPySpace).reverse.dropWhile isPySpace).reverse)

/-- Python `s[:n]`: the first `n` code points of `s`. -/
def pyTake (n : ℕ) (s : String) : String := String.mk (s.data.take n)

/-- The sentence list retained by `translate_segment` (source lines 101–106): split,
then — when the original text is longer than `max_line_length` — truncate every
sentence to `max_line_length` characters and cap the list at `max_lines`; otherwise
only cap the list at `max_lines`. -/
def capped_sentences (split : String → List String) (max_line_length max_lines : ℕ)
    (text : String) : List String :=
  if max_line_length < text.length then
    ((split text).map (fun s => pyTake max_line_length s)).take max_lines
  else
    (split text).take max_lines

/-- `translate_segment` (source lines 96–119): return `""` for empty or short (trimmed
length < 3) text, otherwise translate each retained sentence with the engine and join
the results with single spaces. -/
def translate_segment (split : String → List String) (engine : String → String)
    (max_line_length max_lines : ℕ) (text : String) : String :=
  if text.length = 0 ∨ (pyStrip text).length < 3 then ""
  else
    String.intercalate " "
      ((capped_sentences split max_line_length max_lines text).map engine)

/-- The source-language remap of `translate` (source line 151):
`language_code_map.get(source_lang, source_lang) or "eng_Latn"` — look the code up with
the code itself as default, then replace a falsy (empty) result by `"eng_Latn"`. -/
def map_source_lang (language_code_map : List (String × String))
    (source_lang : String) : String :=
  if (language_code_map.lookup source_lang).getD source_lang = "" then "eng_Latn"
  else (language_code_map.lookup source_lang).getD source_lang

/-- `translate` (source lines 137–174), reduced to its data flow: remap the source
language and translate each segment's text in order, keeping `start`/`end`. -/
def translate (language_code_map : List (String × String))
    (split : String → List String) (engine : String → String)
    (max_line_length max_lines : ℕ) (segments : List Seg) (source_lang : String) :
    String × List Seg :=
  (map_source_lang language_code_map source_lang,
   segments.map (fun seg =>
     (seg.1, seg.2.1, translate_segment split engine max_line_length max_lines seg.2.2)))

/-- C4: any segment whose trimmed text is shorter than 3 characters translates to `""`
exactly, for every splitter and engine (the engine is never consulted) and without any
failure. -/
theorem short_text_skip (split : String → List String) (engine : String → String)
    (max_line_length max_lines : ℕ) (text : String)
    (h : (pyStrip text).length < 3) :
    translate_segment split engine max_line_length max_lines text = "" := by
  unfold translate_segment
  rw [if_pos (Or.inr h)]

/-- C4 witness: `" a "` trims to one character and yields `""`. -/
theorem short_text_skip_witness :
    (pyStrip " a ").length < 3 ∧
    translate_segment (fun t => [t]) (fun s => s ++ "!") 40 2 " a " = "" :=
  ⟨by decide, short_text_skip _ _ _ _ _ (by decide)⟩

/-- C2: past the short-text check, the translated text is the engine image of the
retained sentences; at most `max_lines` sentences are retained; when the original text
is longer than `max_line_length` every retained sentence is a `max_line_length`-
character truncation (so its length is at most `max_line_length`), and otherwise the
retained list is just the first `max_lines` sentences, untruncated. -/
theorem truncation_policy (split : String → List String) (engine : String → String)
    (max_line_length max_lines : ℕ) (text : String)
    (hpass : ¬(text.length = 0 ∨ (pyStrip text).length < 3)) :
    translate_segment split engine max_line_length max_lines text =
      String.intercalate " "
        ((capped_sentences split max_line_length max_lines text).map engine) ∧
    (capped_sentences split max_line_length max_lines text).length ≤ max_lines ∧
    (max_line_length < text.length →
      capped_sentences split max_line_length max_lines text =
        ((split text).map (fun s => pyTake max_line_length s)).take max_lines ∧
      ∀ s ∈ capped_sentences split max_line_length max_lines text,
        s.length ≤ max_line_length) ∧
    (¬ max_line_length < text.length →
      capped_sentences split max_line_length max_lines text =
        (split text).take max_lines) := by
  refine ⟨?_, ?_, ?_, ?_⟩
  · unfold translate_segment
    rw [if_neg hpass]
  · unfold capped_sentences
    by_cases h : max_line_length < text.length
    · rw [if_pos h, List.length_take]
      omega
    · rw [if_neg h, List.length_take]
      omega
  · intro h
    unfold capped_sentences
    rw [if_pos h]
    refine ⟨rfl, ?_⟩
    intro s hs
    have hs2 : s ∈ (split text).map (fun s => pyTake max_line_length s) :=
      List.take_subset _ _ hs
    obtain ⟨t, _, ht⟩ := List.mem_map.mp hs2
    rw [← ht]
    show (t.data.take max_line_length).length ≤ max_line_length
    rw [List.length_take]
    omega
  · intro h
    unfold capped_sentences
    rw [if_neg h]

/-- A 50-character demonstration input for the truncation-policy witness. -/
def demoText : String := "xxxxxxxxxxxxxxxxxxxxxxxxxxxxxxxxxxxxxxxxxxxxxxxxxx"

/-- A splitter returning three sentences, the first longer than 40 characters. -/
def demoSplit : String → List String :=
  fun _ => ["aaaaaaaaaaaaaaaaaaaaaaaaaaaaaaaaaaaaaaaaaaaaa", "bbbb.", "cc."]

/-- C2 witness: with `max_line_length = 40`, `max_lines = 2` and a 3-sentence,
50-character input, at most 2 sentences are retained, each at most 40 characters. -/
theorem truncation_policy_witness :
    ¬(demoText.length = 0 ∨ (pyStrip demoText).length < 3) ∧
    (capped_sentences demoSplit 40 2 demoText).length ≤ 2 ∧
    (∀ s ∈ capped_sentences demoSplit 40 2 demoText, s.length ≤ 40) := by
  have h := truncation_policy demoSplit (fun s => s) 40 2 demoText (by decide)
  exact ⟨by decide, h.2.1, (h.2.2.1 (by decide)).2⟩

/-- C5: the translation stage returns exactly as many segments as it was given, in the
same order, with the `start`/`end` pair of each untouched — only `text` is replaced. -/
theorem translate_preserves_frame (language_code_map : List (String × String))
    (split : String → List String) (engine : String → String)
    (max_line_length max_lines : ℕ) (segments : List Seg) (source_lang : String) :
    ((translate language_code_map split engine max_line_length max_lines segments
        source_lang).2).length = segments.length ∧
    ((translate language_code_map split engine max_line_length max_lines segments
        source_lang).2).map (fun seg => (seg.1, seg.2.1)) =
      segments.map (fun seg => (seg.1, seg.2.1)) := by
  unfold translate
  refine ⟨by simp, ?_⟩
  rw [List.map_map]
  rfl

/-- C6 counterexample: an unmapped, non-empty source code is passed through unchanged —
`map_source_lang [] "fr" = "fr"` — not replaced by the claimed default `eng_Latn`. -/
theorem lang_fallback_counterexample :
    map_source_lang [] "fr" = "fr" ∧ "fr" ≠ "eng_Latn" := by
  constructor
  · decide
  · decide

/-- C6 amended: the source code is mapped through the table with the input code itself
as the default when unmapped, and the `eng_Latn` fallback applies exactly when the
resulting code is empty. -/
theorem lang_fallback (language_code_map : List (String × String)) (code : String) :
    (∀ v, language_code_map.lookup code = some v →
      map_source_lang language_code_map code = if v = "" then "eng_Latn" else v) ∧
    (language_code_map.lookup code = none →
      map_source_lang language_code_map code = if code = "" then "eng_Latn" else code) := by
  constructor
  · intro v hv
    unfold map_source_lang
    rw [hv]
    rfl
  · intro h
    unfold map_source_lang
    rw [h]
    rfl

/-- C6 amended, witness: a mapped code uses the table entry; an unmapped empty code
falls back to `eng_Latn`. -/
theorem lang_fallback_witness :
    [("en", "eng_Latn")].lookup "en" = some "eng_Latn" ∧
    map_source_lang [("en", "eng_Latn")] "en" = "eng_Latn" ∧
    ([] : List (String × String)).lookup "" = none ∧
    map_source_lang [] "" = "eng_Latn" := by
  have h1 := (lang_fallback [("en", "eng_Latn")] "en").1 "eng_Latn" (by decide)
  have h2 := (lang_fallback [] "").2 (by decide)
  refine ⟨by decide, ?_, by decide, ?_⟩
  · rw [h1]
    decide
  · rw [h2]
    decide

/-! ### JSON transcript envelope (save_json_segments, transcribe_only.py lines 53–57;
load_segments, translate_only.py lines 69–80).  Parsing and printing of JSON text are
done by Python's `json` library, an external collaborator; the repository's own
contract is the in-memory JSON value: the envelope it builds and the key accesses it
performs.  JSON numbers carry exact rationals. -/

/-- A JSON value. -/
inductive Json where
  | null : Json
  | bool (b : Bool) : Json
  | num (q : ℚ) : Json
  | str (s : String) : Json
  | arr (elems : List Json) : Json
  | obj (fields : List (String × Json)) : Json

/-- Python subscript errors raised by `data[key]`. -/
inductive PyError where
  | keyError : PyError
  | typeError : PyError
deriving DecidableEq

/-- Python `data[key]`: a `KeyError` for a missing key, a `TypeError` when `data` is
not a mapping. -/
def getItem : Json → String → Except PyError Json
  | .obj fields, key =>
    match fields.lookup key with
    | some v => .ok v
    | none => .error .keyError
  | _, _ => .error .typeError

/-- `load_segments`: `return data["segments"], data["lang"]` — both values are returned
exactly as found, with no validation of their types. -/
def load_segments (data : Json) : Except PyError (Json × Json) :=
  match getItem data "segments" with
  | .error e => .error e
  | .ok segs =>
    match getItem data "lang" with
    | .error e => .error e
    | .ok lang => .ok (segs, lang)

/-- One segment as `save_json_segments` serializes it: the `[start, end, text]` triple. -/
def segToJson (seg : Seg) : Json := .arr [.num seg.1, .num seg.2.1, .str seg.2.2]

/-- `save_json_segments`: the envelope `{"segments": [...], "lang": lang}` handed to
`json.dump`. -/
def save_json_segments (segments : List Seg) (lang : String) : Json :=
  .obj [("segments", .arr (segments.map segToJson)), ("lang", .str lang)]

/-- Reading one serialized segment back, as the consumer's
`for start, end, text in segments` unpacking does on a conforming triple. -/
def jsonToSeg : Json → Option Seg
  | .arr [.num s, .num e, .str t] => some (s, e, t)
  | _ => none

/-- Reading the serialized segment list back. -/
def jsonToSegList : Json → Option (List Seg)
  | .arr elems => elems.mapM jsonToSeg
  | _ => none

/-- Decoding a transcript from the JSON envelope: the key accesses of `load_segments`
followed by the consumer-side reading of the triples and the language tag. -/
def decode_transcript (data : Json) : Except PyError (List Seg × String) :=
  match load_segments data with
  | .error e => .error e
  | .ok (segsJson, langJson) =>
    match jsonToSegList segsJson, langJson with
    | some segs, .str lang => .ok (segs, lang)
    | _, _ => .error .typeError

theorem jsonToSegList_map (segments : List Seg) :
    jsonToSegList (.arr (segments.map segToJson)) = some segments := by
  unfold jsonToSegList
  induction segments with
  | nil => rfl
  | cons seg rest ih =>
    simp only [List.map_cons, List.mapM_cons]
    simp only [List.map] at ih
    rw [ih]
    rfl

/-- C3: decoding the JSON envelope produced by encoding a transcript returns the very
same segment list (start, end and text of every segment) and the very same language
tag. -/
theorem json_round_trip (segments : List Seg) (lang : String) :
    decode_transcript (save_json_segments segments lang) = .ok (segments, lang) := by
  unfold decode_transcript save_json_segments load_segments getItem
  simp only [List.lookup]
  rw [show (("segments" == "segments") = true) from rfl,
    show (("lang" == "segments") = false) from rfl,
    show (("lang" == "lang") = true) from rfl]
  simp only [cond_true, cond_false]
  rw [jsonToSegList_map]

/-- C8 counterexample: with both keys present but carrying non-conforming values (the
segments a bare string, the language a number), `load_segments` succeeds and returns
the raw values — the claimed type-mismatch failure does not happen. -/
theorem json_decode_no_type_check :
    load_segments (.obj [("segments", .str "hi"), ("lang", .num 5)]) =
      .ok (.str "hi", .num 5) ∧
    jsonToSegList (.str "hi") = none := by
  constructor
  · rfl
  · rfl

/-- C8 amended: decoding fails exactly when a required key is absent (Python
`KeyError`, the spec's `MalformedInputError`); whenever both `segments` and `lang` keys
are present, decoding succeeds and returns their values unvalidated, whatever their
types. -/
theorem json_decode_key_check (fields : List (String × Json)) :
    (fields.lookup "segments" = none →
      load_segments (.obj fields) = .error .keyError) ∧
    (∀ s, fields.lookup "segments" = some s → fields.lookup "lang" = none →
      load_segments (.obj fields) = .error .keyError) ∧
    (∀ s l, fields.lookup "segments" = some s → fields.lookup "lang" = some l →
      load_segments (.obj fields) = .ok (s, l)) := by
  refine ⟨?_, ?_, ?_⟩
  · intro h
    simp only [load_segments, getItem, h]
  · intro s hs hl
    simp only [load_segments, getItem, hs, hl]
  · intro s l hs hl
    simp only [load_segments, getItem, hs, hl]

/-- C8 amended, witness: a missing `lang` key fails, a complete envelope succeeds. -/
theorem json_decode_key_check_witness :
    load_segments (.obj [("segments", .arr [])]) = .error .keyError ∧
    load_segments (.obj [("segments", .arr []), ("lang", .str "en")]) =
      .ok (.arr [], .str "en") := by
  constructor
  · exact (json_decode_key_check [("segments", .arr [])]).2.1 (.arr []) rfl rfl
  · exact (json_decode_key_check [("segments", .arr []), ("lang", .str "en")]).2.2
      (.arr []) (.str "en") rfl rfl

/-! ### Pipeline orchestrator (pipeline.py).  The four stage bodies shell out to the
external tools, so each is abstracted to an outcome (`Except`); `run_pipeline`'s own
logic — video selection first, then the four fixed `if "name" in steps` blocks, with
every stage error re-raised — is modelled exactly.  The trace records which stages
actually ran, in order. -/

/-- The four pipeline stages. -/
inductive Stage where
  | extract : Stage
  | transcribe : Stage
  | translate : Stage
  | subtitles : Stage
deriving DecidableEq

/-- The stage names accepted in `--steps`. -/
def stageName : Stage → String
  | .extract => "extract"
  | .transcribe => "transcribe"
  | .translate => "translate"
  | .subtitles => "subtitles"

/-- The fixed textual order of the stage blocks in `run_pipeline` (lines 147–157). -/
def stageOrder : List Stage := [.extract, .transcribe, .translate, .subtitles]

/-- `select_video_file` (lines 50–63): an explicit path must exist; otherwise the
first MP4 of the configured video directory is taken, and an empty directory is a
`FileNotFoundError`.  The file system is abstracted as the existence predicate and the
directory listing. -/
def select_video_file (fileExists : String → Bool) (video_dir_mp4s : List String)
    (video_arg : Option String) : Except String String :=
  match video_arg with
  | some v => if fileExists v then .ok v else .error ("Video file not found: " ++ v)
  | none =>
    match video_dir_mp4s with
    | [] => .error "No MP4 files found"
    | v :: _ => .ok v

/-- The chain of `if "name" in steps: step_...()` blocks: run each requested stage in
the given order, stop at the first error (the stage helpers and `run_pipeline` both
re-raise every exception). -/
def runStages (steps : List String) (runStep : Stage → Except String Unit) :
    List Stage → List Stage × Except String Unit
  | [] => ([], .ok ())
  | st :: rest =>
    if steps.contains (stageName st) then
      match runStep st with
      | .ok _ =>
        match runStages steps runStep rest with
        | (ran, res) => (st :: ran, res)
      | .error e => ([st], .error e)
    else runStages steps runStep rest

/-- `run_pipeline` (lines 120–173): resolve the video first; on failure nothing runs
and the error surfaces; otherwise execute the requested stages in the fixed order. -/
def run_pipeline (steps : List String) (video : Except String String)
    (runStep : Stage → Except String Unit) : List Stage × Except String Unit :=
  match video with
  | .error e => ([], .error e)
  | .ok _ => runStages steps runStep stageOrder

/-- The requested stages, in the pipeline's fixed order (never the request order). -/
def requestedStages (steps : List String) : List Stage :=
  stageOrder.filter (fun st => steps.contains (stageName st))

theorem runStages_all_ok (steps : List String) (runStep : Stage → Except String Unit)
    (l : List Stage)
    (h : ∀ st ∈ l.filter (fun st => steps.contains (stageName st)), runStep st = .ok ()) :
    runStages steps runStep l =
      (l.filter (fun st => steps.contains (stageName st)), .ok ()) := by
  induction l with
  | nil => rfl
  | cons a rest ih =>
    rw [List.filter_cons] at h ⊢
    by_cases hc : steps.contains (stageName a)
    · rw [if_pos hc] at h ⊢
      have ha : runStep a = .ok () := h a (List.mem_cons_self a _)
      have hrest : ∀ st ∈ rest.filter (fun st => steps.contains (stageName st)),
          runStep st = .ok () := fun st hst => h st (List.mem_cons_of_mem a hst)
      simp only [runStages, hc, if_true, ha, ih hrest]
    · rw [if_neg hc] at h ⊢
      simp only [runStages, hc, ih h]
      rw [if_neg Bool.false_ne_true]

theorem runStages_first_error (steps : List String) (runStep : Stage → Except String Unit)
    (l : List Stage) (st : Stage) (e : String) :
    ∀ pre post, l.filter (fun s => steps.contains (stageName s)) = pre ++ st :: post →
      (∀ x ∈ pre, runStep x = .ok ()) → runStep st = .error e →
      runStages steps runStep l = (pre ++ [st], .error e) := by
  induction l with
  | nil =>
    intro pre post hsplit _ _
    simp at hsplit
  | cons a rest ih =>
    intro pre post hsplit hpre hst
    rw [List.filter_cons] at hsplit
    by_cases hc : steps.contains (stageName a)
    · rw [if_pos hc] at hsplit
      cases pre with
      | nil =>
        simp only [List.nil_append] at hsplit ⊢
        have ha : a = st := (List.cons_eq_cons.mp hsplit).1
        subst ha
        simp only [runStages, hc, if_true, hst]
      | cons p ps =>
        rw [List.cons_append] at hsplit
        have ha : a = p := (List.cons_eq_cons.mp hsplit).1
        subst ha
        have hrest := (List.cons_eq_cons.mp hsplit).2
        have haok : runStep a = .ok () := hpre a (List.mem_cons_self a ps)
        have hpre2 : ∀ x ∈ ps, runStep x = .ok () :=
          fun x hx => hpre x (List.mem_cons_of_mem a hx)
        simp only [runStages, hc, if_true, haok, ih ps post hrest hpre2 hst,
          List.cons_append]
    · rw [if_neg hc] at hsplit
      simp only [runStages, hc, ih pre post hsplit hpre hst]
      rw [if_neg Bool.false_ne_true]

/-- C9: for any requested subset of stage names, the orchestrator executes exactly the
requested stages in the fixed order extract → transcribe → translate → subtitles
(unrequested stages skipped, never reordered); when all succeed the run succeeds, and
when a stage fails nothing after it runs and its error is surfaced. -/
theorem pipeline_stage_order (steps : List String)
    (runStep : Stage → Except String Unit) (v : String) :
    ((∀ st ∈ requestedStages steps, runStep st = .ok ()) →
      run_pipeline steps (.ok v) runStep = (requestedStages steps, .ok ())) ∧
    (∀ pre st post e, requestedStages steps = pre ++ st :: post →
      (∀ x ∈ pre, runStep x = .ok ()) → runStep st = .error e →
      run_pipeline steps (.ok v) runStep = (pre ++ [st], .error e)) := by
  constructor
  · intro h
    show runStages steps runStep stageOrder = _
    exact runStages_all_ok steps runStep stageOrder h
  · intro pre st post e hsplit hpre hst
    show runStages steps runStep stageOrder = _
    exact runStages_first_error steps runStep stageOrder st e pre post hsplit hpre hst

/-- C9 witness: requesting `["translate", "extract"]` runs extract then translate,
in the fixed order, and succeeds. -/
theorem pipeline_stage_order_witness :
    run_pipeline ["translate", "extract"] (.ok "v") (fun _ => .ok ()) =
      ([Stage.extract, Stage.translate], .ok ()) := by
  have h := (pipeline_stage_order ["translate", "extract"] (fun _ => .ok ()) "v").1
    (fun st _ => rfl)
  rw [h]
  rfl

/-- C10: video resolution runs before any stage: with an explicit path that does not
exist, or no explicit path and no MP4 in the video directory, the run fails with the
file-not-found error and the executed-stage trace is empty — whatever subset of stages
was requested. -/
theorem video_resolution_first (steps : List String)
    (runStep : Stage → Except String Unit) (fileExists : String → Bool)
    (video_dir_mp4s : List String) (video_arg : Option String)
    (h : (∃ v, video_arg = some v ∧ fileExists v = false) ∨
      (video_arg = none ∧ video_dir_mp4s = [])) :
    ∃ msg, select_video_file fileExists video_dir_mp4s video_arg = .error msg ∧
      run_pipeline steps (select_video_file fileExists video_dir_mp4s video_arg)
        runStep = ([], .error msg) := by
  rcases h with ⟨v, hv, hex⟩ | ⟨hv, hdir⟩
  · subst hv
    refine ⟨"Video file not found: " ++ v, ?_, ?_⟩
    · simp [select_video_file, hex]
    · simp [run_pipeline, select_video_file, hex]
  · subst hv
    subst hdir
    exact ⟨"No MP4 files found", rfl, rfl⟩

/-- C10 witness: a missing explicit video path fails the run before any stage, even
though only the translate stage was requested. -/
theorem video_resolution_first_witness :
    (∃ msg, select_video_file (fun _ => false) [] (some "clip.mp4") = .error msg ∧
      run_pipeline ["translate"] (select_video_file (fun _ => false) [] (some "clip.mp4"))
        (fun _ => .ok ()) = ([], .error msg)) ∧
    select_video_file (fun _ => false) [] (some "clip.mp4") =
      .error "Video file not found: clip.mp4" :=
  ⟨video_resolution_first ["translate"] (fun _ => .ok ()) (fun _ => false) []
      (some "clip.mp4") (Or.inl ⟨"clip.mp4", rfl, rfl⟩),
   by rfl⟩

end Subpipe
